import Mathlib

/-!
# Package `workspaces` (services/machinelearning/mgmt/2016-04-01): `enums.go`

A shallow embedding of the two string-backed enumerations `State` and
`WorkspaceType`, their constant blocks, and the two accessors
`PossibleStateValues` and `PossibleWorkspaceTypeValues`.

Go's `type T string` is a defined type whose underlying type is `string`; it is
embedded as a one-field structure over `String`, so that every string is
representable (the type does not restrict its values) while `State` and
`WorkspaceType` stay distinct types.
-/

namespace workspaces

/-- Go: `type State string`. -/
structure State where
  val : String
  deriving DecidableEq, Repr

/-- Go: `Deleted State = "Deleted"`. -/
def Deleted : State := ⟨"Deleted"⟩
/-- Go: `Disabled State = "Disabled"`. -/
def Disabled : State := ⟨"Disabled"⟩
/-- Go: `Enabled State = "Enabled"`. -/
def Enabled : State := ⟨"Enabled"⟩
/-- Go: `Migrated State = "Migrated"`. -/
def Migrated : State := ⟨"Migrated"⟩
/-- Go: `Registered State = "Registered"`. -/
def Registered : State := ⟨"Registered"⟩
/-- Go: `Unregistered State = "Unregistered"`. -/
def Unregistered : State := ⟨"Unregistered"⟩
/-- Go: `Updated State = "Updated"`. -/
def Updated : State := ⟨"Updated"⟩

/-- The `const ( ... )` block of `State` (enums.go lines 23-38): one entry per
declaration, in declaration order, pairing the declared identifier with the
constant it introduces. -/
def StateConstBlock : List (String × State) :=
  [("Deleted", Deleted), ("Disabled", Disabled), ("Enabled", Enabled),
   ("Migrated", Migrated), ("Registered", Registered),
   ("Unregistered", Unregistered), ("Updated", Updated)]

/-- Go: `func PossibleStateValues() []State`. -/
def PossibleStateValues : List State :=
  [Deleted, Disabled, Enabled, Migrated, Registered, Unregistered, Updated]

/-- Go: `type WorkspaceType string`. -/
structure WorkspaceType where
  val : String
  deriving DecidableEq, Repr

/-- Go: `Anonymous WorkspaceType = "Anonymous"`. -/
def Anonymous : WorkspaceType := ⟨"Anonymous"⟩
/-- Go: `Free WorkspaceType = "Free"`. -/
def Free : WorkspaceType := ⟨"Free"⟩
/-- Go: `PaidPremium WorkspaceType = "PaidPremium"`. -/
def PaidPremium : WorkspaceType := ⟨"PaidPremium"⟩
/-- Go: `PaidStandard WorkspaceType = "PaidStandard"`. -/
def PaidStandard : WorkspaceType := ⟨"PaidStandard"⟩
/-- Go: `Production WorkspaceType = "Production"`. -/
def Production : WorkspaceType := ⟨"Production"⟩

/-- The `const ( ... )` block of `WorkspaceType` (enums.go lines 48-59): one
entry per declaration, in declaration order, pairing the declared identifier
with the constant it introduces. -/
def WorkspaceTypeConstBlock : List (String × WorkspaceType) :=
  [("Anonymous", Anonymous), ("Free", Free), ("PaidPremium", PaidPremium),
   ("PaidStandard", PaidStandard), ("Production", Production)]

/-- Go: `func PossibleWorkspaceTypeValues() []WorkspaceType`. -/
def PossibleWorkspaceTypeValues : List WorkspaceType :=
  [Anonymous, Free, PaidPremium, PaidStandard, Production]

/-! ## Invocation in a process

Neither accessor has a parameter, and neither body reads or writes a
package-level variable. With the process state made explicit, a call returns
the slice literal and hands the state back untouched. -/

/-- A call of `PossibleStateValues()` in process state `p`. -/
def callPossibleStateValues {P : Type} (p : P) : List State × P :=
  (PossibleStateValues, p)

/-- A call of `PossibleWorkspaceTypeValues()` in process state `p`. -/
def callPossibleWorkspaceTypeValues {P : Type} (p : P) : List WorkspaceType × P :=
  (PossibleWorkspaceTypeValues, p)

/-- The calls a client of the package can make. -/
inductive Call where
  | possibleStateValues
  | possibleWorkspaceTypeValues
  deriving DecidableEq, Repr

/-- The process state after one call (the returned slice is dropped). -/
def Call.run {P : Type} (c : Call) (p : P) : P :=
  match c with
  | .possibleStateValues => (callPossibleStateValues p).2
  | .possibleWorkspaceTypeValues => (callPossibleWorkspaceTypeValues p).2

/-- The process state after a sequence of earlier calls, first call first. -/
def runCalls {P : Type} (cs : List Call) (p : P) : P :=
  cs.foldl (fun q c => c.run q) p

/-! ## Go's string order

The comparison operators on Go strings compare the strings byte by byte; a Go
string literal holds the UTF-8 encoding of its source text. -/

/-- The UTF-8 encoding of the code point `c`, as a list of byte values. -/
def utf8Bytes (c : Nat) : List Nat :=
  if c < 0x80 then [c]
  else if c < 0x800 then [0xC0 + c / 0x40, 0x80 + c % 0x40]
  else if c < 0x10000 then
    [0xE0 + c / 0x1000, 0x80 + c / 0x40 % 0x40, 0x80 + c % 0x40]
  else
    [0xF0 + c / 0x40000, 0x80 + c / 0x1000 % 0x40, 0x80 + c / 0x40 % 0x40,
     0x80 + c % 0x40]

/-- The bytes of a string. -/
def stringBytes (s : String) : List Nat :=
  s.data.flatMap (fun c => utf8Bytes c.toNat)

/-- Go: `a < b` for strings `a`, `b`: lexicographic comparison of the bytes. -/
def stringLess (a b : String) : Bool :=
  decide (stringBytes a < stringBytes b)

/-! ## Theorems -/

/-- A sequence of earlier accessor calls leaves the process state as it was. -/
theorem runCalls_state {P : Type} (cs : List Call) (p : P) : runCalls cs p = p := by
  induction cs with
  | nil => rfl
  | cons c cs ih =>
    cases c <;> simpa [runCalls, Call.run, callPossibleStateValues,
      callPossibleWorkspaceTypeValues] using ih

/-- C1: `PossibleStateValues()` returns exactly the seven strings "Deleted",
"Disabled", "Enabled", "Migrated", "Registered", "Unregistered", "Updated", in
that order, each element read through its underlying string. -/
theorem PossibleStateValues_strings :
    PossibleStateValues.map State.val =
        ["Deleted", "Disabled", "Enabled", "Migrated", "Registered",
         "Unregistered", "Updated"] ∧
      PossibleStateValues.length = 7 := by
  constructor <;> rfl

/-- C2: `PossibleWorkspaceTypeValues()` returns exactly the five strings
"Anonymous", "Free", "PaidPremium", "PaidStandard", "Production", in that
order, each element read through its underlying string. -/
theorem PossibleWorkspaceTypeValues_strings :
    PossibleWorkspaceTypeValues.map WorkspaceType.val =
        ["Anonymous", "Free", "PaidPremium", "PaidStandard", "Production"] ∧
      PossibleWorkspaceTypeValues.length = 5 := by
  constructor <;> rfl

/-- C3: each of the twelve named constants has, as its underlying string, its
own identifier spelled as a literal (string equality is case-sensitive); the
same holds entry by entry for both constant blocks. -/
theorem constant_value_eq_identifier :
    (Deleted.val = "Deleted" ∧ Disabled.val = "Disabled" ∧ Enabled.val = "Enabled" ∧
      Migrated.val = "Migrated" ∧ Registered.val = "Registered" ∧
      Unregistered.val = "Unregistered" ∧ Updated.val = "Updated") ∧
    (Anonymous.val = "Anonymous" ∧ Free.val = "Free" ∧
      PaidPremium.val = "PaidPremium" ∧ PaidStandard.val = "PaidStandard" ∧
      Production.val = "Production") ∧
    StateConstBlock.map (fun d => d.2.val) = StateConstBlock.map Prod.fst ∧
    WorkspaceTypeConstBlock.map (fun d => d.2.val) =
      WorkspaceTypeConstBlock.map Prod.fst := by
  decide

/-- C4: for each accessor, a value is in the returned sequence exactly when it
is one of the constants declared for the type, the elements are pairwise
distinct, every declared constant occurs exactly once, and the sequence is the
constant block read in declaration order. -/
theorem possibleValues_exactly_declared :
    ((∀ s : State, s ∈ PossibleStateValues ↔
        s = Deleted ∨ s = Disabled ∨ s = Enabled ∨ s = Migrated ∨ s = Registered ∨
          s = Unregistered ∨ s = Updated) ∧
      PossibleStateValues.Nodup ∧
      (StateConstBlock.map Prod.snd).all (fun c => PossibleStateValues.count c == 1) = true ∧
      PossibleStateValues = StateConstBlock.map Prod.snd) ∧
    ((∀ w : WorkspaceType, w ∈ PossibleWorkspaceTypeValues ↔
        w = Anonymous ∨ w = Free ∨ w = PaidPremium ∨ w = PaidStandard ∨ w = Production) ∧
      PossibleWorkspaceTypeValues.Nodup ∧
      (WorkspaceTypeConstBlock.map Prod.snd).all
        (fun c => PossibleWorkspaceTypeValues.count c == 1) = true ∧
      PossibleWorkspaceTypeValues = WorkspaceTypeConstBlock.map Prod.snd) := by
  refine ⟨⟨?_, by decide, by decide, rfl⟩, ⟨?_, by decide, by decide, rfl⟩⟩
  · intro s
    simp [PossibleStateValues]
  · intro w
    simp [PossibleWorkspaceTypeValues]

/-- C5: any two calls of an accessor return equal sequences, whatever the
process states `p`, `q` they run in and whatever accessor calls `earlier` came
before; the calls leave the process state unchanged. -/
theorem possibleValues_repeatable (P : Type) (p q : P) (earlier : List Call) :
    (callPossibleStateValues p).1 = (callPossibleStateValues q).1 ∧
    (callPossibleWorkspaceTypeValues p).1 = (callPossibleWorkspaceTypeValues q).1 ∧
    (callPossibleStateValues (runCalls earlier p)).1 = (callPossibleStateValues p).1 ∧
    (callPossibleWorkspaceTypeValues (runCalls earlier p)).1 =
      (callPossibleWorkspaceTypeValues p).1 ∧
    (callPossibleStateValues p).2 = p ∧
    (callPossibleWorkspaceTypeValues p).2 = p ∧
    runCalls earlier p = p :=
  ⟨rfl, rfl, rfl, rfl, rfl, rfl, runCalls_state earlier p⟩

/-- C6: both accessor results are strictly ascending in byte-wise
lexicographic string order: each element is less than its successor. -/
theorem possibleValues_strictly_ascending :
    List.Chain' (fun a b => stringLess a b = true) (PossibleStateValues.map State.val) ∧
    List.Chain' (fun a b => stringLess a b = true)
      (PossibleWorkspaceTypeValues.map WorkspaceType.val) := by
  constructor
  · simp only [PossibleStateValues, List.map, List.chain'_cons, List.chain'_singleton,
      and_true]
    decide
  · simp only [PossibleWorkspaceTypeValues, List.map, List.chain'_cons,
      List.chain'_singleton, and_true]
    decide

/-- C7: no string is the underlying value of both an element of
`PossibleStateValues()` and an element of `PossibleWorkspaceTypeValues()`; the
twelve labels taken together are pairwise distinct. -/
theorem state_workspaceType_labels_disjoint :
    (∀ label : String,
      ¬ (label ∈ PossibleStateValues.map State.val ∧
          label ∈ PossibleWorkspaceTypeValues.map WorkspaceType.val)) ∧
    (PossibleStateValues.map State.val ++
      PossibleWorkspaceTypeValues.map WorkspaceType.val).Nodup := by
  have h : (PossibleStateValues.map State.val ++
      PossibleWorkspaceTypeValues.map WorkspaceType.val).Nodup := by decide
  refine ⟨?_, h⟩
  rintro label ⟨hs, hw⟩
  exact (List.nodup_append.mp h).2.2 hs hw

end workspaces
